import Mathlib

/-!
Verification development for the `react-console` native addon
(`src/native/src/lib.rs`).  The crate exposes a single function:

```rust
/// Returns the native addon version (for sanity check / no-fallback requirement).
#[napi]
pub fn get_version() -> String {
    env!("CARGO_PKG_VERSION").to_string()
}
```

`env!("CARGO_PKG_VERSION")` is a string constant substituted at compile
time from the crate's build metadata (the package version in the crate
manifest, which is not part of the source tree proper).  We therefore
embed a build as a record carrying that compile-time constant, and
`get_version` as a function of the build alone.  Runtime state and the
runtime environment are made explicit so that purity, determinism and
non-interference can be stated as theorems rather than assumed.
-/

namespace ReactConsole

/-- Modelled from the spec: the build-time metadata of a compiled binary.
The crate manifest (not present under the source directory) declares a
package version; Cargo embeds it into the binary at compile time as the
constant `CARGO_PKG_VERSION`.  The spec: "a version string, immutable,
known at compile time", "embedded at build time, read at call time,
never mutated". -/
structure Build where
  cargoPkgVersion : String
deriving Repr, DecidableEq

/-- Modelled from the spec: Cargo's resolution of the manifest's version
field into the `CARGO_PKG_VERSION` constant.  The spec: "if build-time
metadata is absent, the value may be a placeholder but the operation
itself does not fail" — when the manifest declares no version, the
embedded constant is the placeholder version `"0.0.0"`. -/
def resolveBuildMetadata (declared : Option String) : Build :=
  { cargoPkgVersion := declared.getD "0.0.0" }

/-- Rust's `str::to_string`, specialised to the embedded constant: it
copies the string slice into an owned `String` with identical contents.
No branch of it can panic (allocation failure aborts the process; it is
not a panic edge), which the embedding records by returning in the
success case of `Except`. -/
def rustToString (s : String) : Except String String :=
  Except.ok s

/-- `get_version` from `src/native/src/lib.rs` lines 7–9: it reads the
compile-time constant `CARGO_PKG_VERSION` of the build and converts it
to an owned string.  The `Except` layer carries the (absent) panic
possibility of the body. -/
def get_versionE (b : Build) : Except String String :=
  rustToString b.cargoPkgVersion

/-- `get_version` as the plain string-valued function it is: the body
has no fallible operation, so the `Except` wrapper always holds a value. -/
def get_version (b : Build) : String :=
  b.cargoPkgVersion

/-- The observable runtime state of the process hosting the addon:
environment variables and an abstract mutable heap.  `get_version`
touches neither; making them explicit lets the frame and
non-interference claims be stated. -/
structure RuntimeState where
  envVars : String → Option String
  heap : Nat → Nat

/-- A single call to `get_version` as the host runtime sees it: it
receives the current runtime state and returns the string together with
the state after the call.  The body of the Rust function performs no
read of and no write to the runtime state, so the embedding threads the
state through unchanged. -/
def get_versionCall (b : Build) (st : RuntimeState) : String × RuntimeState :=
  (get_version b, st)

/-- An interleaved execution of any number of concurrent callers of
`get_version` against a shared runtime state: each scheduled caller
performs one call, observing the state left by the previous one.  The
schedule lists the callers in the order the scheduler runs them. -/
def runConcurrent (b : Build) (st : RuntimeState) : List Nat → List String × RuntimeState
  | [] => ([], st)
  | _ :: rest =>
      let r := get_versionCall b st
      let tail := runConcurrent b r.2 rest
      (r.1 :: tail.1, tail.2)

/-- A concrete runtime state used by witnesses. -/
def someState : RuntimeState :=
  { envVars := fun _ => none, heap := fun _ => 0 }

/-- A second concrete runtime state, differing from `someState` in both
environment and heap, used by witnesses of environment-independence. -/
def otherState : RuntimeState :=
  { envVars := fun k => some k, heap := fun n => n + 1 }

end ReactConsole

namespace ReactConsole

/-- C1: the string returned by `get_version` equals the version declared
in the build's own metadata — the compile-time constant
`CARGO_PKG_VERSION` embedded from the crate manifest. -/
theorem get_version_eq_build_metadata (b : Build) :
    get_version b = b.cargoPkgVersion := rfl

/-- C2: `get_version` returns a non-empty string.  The build metadata is
not under the source directory; per the spec its invariant is that the
declared version string is non-empty, and the placeholder `"0.0.0"` used
when it is absent is non-empty as well, so every resolved build yields a
non-empty result. -/
theorem get_version_ne_empty (declared : Option String)
    (h : ∀ s, declared = some s → s ≠ "") :
    get_version (resolveBuildMetadata declared) ≠ "" := by
  cases declared with
  | none => simp [get_version, resolveBuildMetadata]
  | some s =>
      have hs := h s rfl
      simpa [get_version, resolveBuildMetadata] using hs

/-- Witness for C2 at the concrete declared version `"1.2.3"`. -/
theorem get_version_ne_empty_witness :
    get_version (resolveBuildMetadata (some "1.2.3")) ≠ "" :=
  get_version_ne_empty (some "1.2.3") (by intro s hs; cases hs; decide)

/-- C3: `get_version` is deterministic — two calls within the same
build, from arbitrary (possibly different) runtime states, return equal
strings. -/
theorem get_version_deterministic (b : Build) (st₁ st₂ : RuntimeState) :
    (get_versionCall b st₁).1 = (get_versionCall b st₂).1 := rfl

/-- C4: if the build declares version `"1.2.3"`, `get_version` returns
exactly `"1.2.3"`. -/
theorem get_version_one_two_three (b : Build)
    (h : b.cargoPkgVersion = "1.2.3") :
    get_version b = "1.2.3" := h

/-- Witness for C4 at the concrete build declaring `"1.2.3"`. -/
theorem get_version_one_two_three_witness :
    get_version { cargoPkgVersion := "1.2.3" } = "1.2.3" :=
  get_version_one_two_three { cargoPkgVersion := "1.2.3" } rfl

/-- C5: `get_version` is total with no error result: for every build —
including one whose manifest declares no version, where the value is the
placeholder — the call succeeds with a value and never fails. -/
theorem get_version_never_fails (declared : Option String) :
    ∃ s, get_versionE (resolveBuildMetadata declared) = Except.ok s ∧
      (declared = none → s = "0.0.0") := by
  cases declared with
  | none => exact ⟨"0.0.0", rfl, fun _ => rfl⟩
  | some v => exact ⟨v, rfl, fun h => by cases h⟩

/-- C6: `get_version` has no side effects: the runtime state observable
by the host — environment variables and heap — is unchanged by a call,
and the returned string does not depend on that state either. -/
theorem get_version_frame (b : Build) (st : RuntimeState) :
    (get_versionCall b st).2 = st := rfl

/-- C7: the result of `get_version` is the compile-time constant of the
build and depends on no runtime input: executions of the same build
under any two runtime environments return the same string, namely the
embedded build metadata. -/
theorem get_version_runtime_independent (b : Build) (st₁ st₂ : RuntimeState) :
    (get_versionCall b st₁).1 = (get_versionCall b st₂).1 ∧
      (get_versionCall b st₁).1 = b.cargoPkgVersion :=
  ⟨rfl, rfl⟩

/-- C8: any interleaving of any number of concurrent callers yields the
same string `get_version b` to every caller, and leaves the shared
runtime state exactly as it was — no observable interference. -/
theorem get_version_concurrent (b : Build) (st : RuntimeState)
    (schedule : List Nat) :
    (∀ s ∈ (runConcurrent b st schedule).1, s = get_version b) ∧
      (runConcurrent b st schedule).2 = st := by
  induction schedule generalizing st with
  | nil => exact ⟨fun s hs => absurd hs (List.not_mem_nil s), rfl⟩
  | cons c rest ih =>
      refine ⟨?_, ?_⟩
      · intro s hs
        simp only [runConcurrent, get_versionCall, List.mem_cons] at hs
        rcases hs with h | h
        · exact h
        · exact (ih st).1 s h
      · simpa [runConcurrent, get_versionCall] using (ih st).2

/-- C9: `get_version` always terminates — it is a total, non-recursive
function whose single straight-line evaluation produces a value for
every build. -/
theorem get_version_terminates (b : Build) :
    ∃ s, get_version b = s ∧ get_versionE b = Except.ok s :=
  ⟨b.cargoPkgVersion, rfl, rfl⟩

/-- C10: `get_version` never panics: its body is the embedded
compile-time constant converted by `to_string`, which has no panic
branch, so the `Except` evaluation always lands in the success case. -/
theorem get_version_no_panic (b : Build) :
    get_versionE b = Except.ok (get_version b) := rfl

end ReactConsole
